import Mathlib

/-!
Verification development for the citation-analysis tool
(`src/getcitatations.py`): a shallow embedding of its identifier
loading/cleaning, provider HTTP clients, checkpoint store and the
`analyze_citations` orchestration loop, together with theorems about the
behaviours documented in the specification.
-/

namespace CitationTool

/-- Characters stripped by Python `str.strip()` (the whitespace relevant
to this program's inputs). -/
def isSpaceChar (c : Char) : Bool :=
  c == ' ' || c == '\t' || c == '\n' || c == '\r'

/-- `str.strip()` on a character list: drop whitespace at both ends. -/
def stripL (l : List Char) : List Char :=
  ((l.dropWhile isSpaceChar).reverse.dropWhile isSpaceChar).reverse

/-- Python `s.strip()`. -/
def pyStrip (s : String) : String :=
  String.mk (stripL s.toList)

/-- Python `s.startswith(pre)`. -/
def pyStartsWith (s pre : String) : Bool :=
  pre.toList.isPrefixOf s.toList

/-- Fuelled worker for `removeAllL`; the fuel only needs to cover the
length of the scanned list. -/
def removeAllAux (pat : List Char) : Nat → List Char → List Char
  | _, [] => []
  | 0, l => l
  | fuel + 1, c :: cs =>
    if pat ≠ [] ∧ pat.isPrefixOf (c :: cs) = true then
      removeAllAux pat fuel (cs.drop (pat.length - 1))
    else
      c :: removeAllAux pat fuel cs

/-- Python `s.replace(pat, "")` on character lists: remove every
non-overlapping occurrence of `pat`, scanning left to right.  An empty
pattern removes nothing, as in Python `s.replace("", "")`. -/
def removeAllL (pat l : List Char) : List Char :=
  removeAllAux pat l.length l

/-- Python `s.replace(pat, "")` on strings. -/
def removeAllStr (s pat : String) : String :=
  String.mk (removeAllL pat.toList s.toList)

/-- The per-identifier cleaning step of `load_dois_from_file`
(lines 42-47 of the source): strip whitespace, then if the value starts
with `https://doi.org/` replace all occurrences of that substring with
the empty string, else if it starts with `doi:` replace all occurrences
of `doi:`. -/
def cleanDoi (doi : String) : String :=
  let d := pyStrip doi
  if pyStartsWith d "https://doi.org/" = true then
    removeAllStr d "https://doi.org/"
  else if pyStartsWith d "doi:" = true then
    removeAllStr d "doi:"
  else
    d

/-- The cleaning loop of `load_dois_from_file` (lines 41-49): clean each
raw identifier and keep only the non-empty results, in order. -/
def cleanDois (dois : List String) : List String :=
  dois.filterMap (fun doi =>
    let c := cleanDoi doi
    if c = "" then none else some c)

/-- The text-file branch of `load_dois_from_file` (lines 36-49): one
identifier per line, each line stripped and blank lines dropped, then the
cleaning loop. -/
def loadTxtDois (fileLines : List String) : List String :=
  cleanDois ((fileLines.map pyStrip).filter (fun l => !(l == "")))

/-- Python `s.split(sep)` worker: split a character list at every
occurrence of `sep`. -/
def splitCharsAux (sep : Char) (acc : List Char) : List Char → List (List Char)
  | [] => [acc.reverse]
  | c :: cs =>
    if c == sep then acc.reverse :: splitCharsAux sep [] cs
    else splitCharsAux sep (c :: acc) cs

/-- Python `s.split(sep)` for a one-character separator. -/
def pySplit (s : String) (sep : Char) : List String :=
  (splitCharsAux sep [] s.toList).map String.mk

/-- The manual-entry branch of `main` (lines 234-235): strip the raw
input, split on commas, strip each piece, and keep the non-empty
pieces.  No prefix cleaning is performed here. -/
def splitManual (rawInput : String) : List String :=
  ((pySplit (pyStrip rawInput) ',').map pyStrip).filter (fun d => !(d == ""))

/-- The 6000-identifier cap applied in `main` (lines 228-230 and
237-239): lists longer than 6000 are truncated to their first 6000
elements. -/
def capDois (dois : List String) : List String :=
  if dois.length > 6000 then dois.take 6000 else dois

/-- The identifier list `main` hands to the analysis in the file-input
branch (load, then cap). -/
def mainFileDois (fileLines : List String) : List String :=
  capDois (loadTxtDois fileLines)

/-- The identifier list `main` hands to the analysis in the
manual-entry branch (split, then cap). -/
def mainManualDois (rawInput : String) : List String :=
  capDois (splitManual rawInput)

/-- Python truthiness of a provider result (`None` and `0` are falsy). -/
def truthy : Option Nat → Bool
  | none => false
  | some n => n != 0

/-- The `max_citations` expression of `analyze_citations` (line 191):
`max(filter(None, [c, o, d])) if any([c, o, d]) else 0`.  Python's
`max` of the non-empty filtered list coincides with a fold of
`Nat.max` from `0`, since all retained values are positive. -/
def maxCitations (c o d : Option Nat) : Nat :=
  if ([c, o, d].any truthy) = true then
    (([c, o, d].filter truthy).filterMap id).foldl Nat.max 0
  else 0

/-- The external citation providers, in the order the orchestrator
queries them. -/
inductive Provider where
  | crossref
  | openalex
  | dimensions
deriving DecidableEq

/-- JSON values as they matter to this program: objects, and natural
number leaves (citation counts are non-negative integers). -/
inductive Json where
  | num : Nat → Json
  | obj : List (String × Json) → Json

/-- Outcome of one `requests.get` call: either an exception (network
error or timeout), or a response with a status code and the result of
`response.json()` (which may itself fail to parse). -/
inductive HttpResult where
  | netError
  | response (status : Nat) (body : Except Unit Json)

/-- `get_crossref_citations` (lines 76-98): on 200 look up the nested
`message.is-referenced-by-count` field (missing key defaults to 0, a
non-object `message` makes `.get` raise and is caught, a top-level
non-object makes `'message' in data` raise and is caught, and a
dictionary without `message` falls through to `return 0`); on 404
return 0; otherwise or on any exception return the absent sentinel. -/
def get_crossref_citations : HttpResult → Option Nat
  | .netError => none
  | .response status body =>
    if status = 200 then
      match body with
      | .error _ => none
      | .ok (Json.obj fields) =>
        match fields.lookup "message" with
        | some (Json.obj msg) =>
          match msg.lookup "is-referenced-by-count" with
          | some (Json.num n) => some n
          | some _ => some 0
          | none => some 0
        | some (Json.num _) => none
        | none => some 0
      | .ok _ => none
    else if status = 404 then some 0
    else none

/-- `get_openalex_citations` (lines 100-117): on 200 look up
`cited_by_count` with default 0 (`.get` on a non-object raises and is
caught); on 404 return 0; otherwise or on any exception return the
absent sentinel. -/
def get_openalex_citations : HttpResult → Option Nat
  | .netError => none
  | .response status body =>
    if status = 200 then
      match body with
      | .error _ => none
      | .ok (Json.obj fields) =>
        match fields.lookup "cited_by_count" with
        | some (Json.num n) => some n
        | some _ => some 0
        | none => some 0
      | .ok _ => none
    else if status = 404 then some 0
    else none

/-- `get_dimensions_citations` (lines 57-74): on 200 look up
`times_cited` with default 0; on 404 return 0; otherwise or on any
exception return the absent sentinel. -/
def get_dimensions_citations : HttpResult → Option Nat
  | .netError => none
  | .response status body =>
    if status = 200 then
      match body with
      | .error _ => none
      | .ok (Json.obj fields) =>
        match fields.lookup "times_cited" with
        | some (Json.num n) => some n
        | some _ => some 0
        | none => some 0
      | .ok _ => none
    else if status = 404 then some 0
    else none

/-- The decimal digit character for `d < 10`. -/
def digitChar (d : Nat) : Char :=
  Char.ofNat (48 + d)

/-- Fuelled worker for `natDigits`; fuel at least `n` suffices. -/
def natDigitsAux : Nat → Nat → List Char
  | _, 0 => []
  | 0, _ + 1 => []
  | fuel + 1, n + 1 =>
    natDigitsAux fuel ((n + 1) / 10) ++ [digitChar ((n + 1) % 10)]

/-- Decimal digit characters of `n`, most significant first (empty for
`0`). -/
def natDigits (n : Nat) : List Char :=
  natDigitsAux n n

/-- Decimal rendering of a natural number, as written into a CSV cell. -/
def natToString (n : Nat) : String :=
  if n = 0 then "0" else String.mk (natDigits n)

/-- Value of a decimal digit character, if it is one. -/
def digitVal? (c : Char) : Option Nat :=
  if 48 ≤ c.toNat ∧ c.toNat ≤ 57 then some (c.toNat - 48) else none

/-- Accumulating decimal parser over a character list. -/
def parseDigitsAux (acc : Nat) : List Char → Option Nat
  | [] => some acc
  | c :: cs =>
    match digitVal? c with
    | some d => parseDigitsAux (acc * 10 + d) cs
    | none => none

/-- Parse a non-empty all-digit string back to a natural number, as a
CSV reader does for a numeric cell. -/
def parseNat (s : String) : Option Nat :=
  match s.toList with
  | [] => none
  | l => parseDigitsAux 0 l

/-- One row of the result set (`result` dict built at lines 186-193):
identifier, the three provider counts (`none` is the absent sentinel,
Python `None` / a NaN cell), the derived maximum and the processing
timestamp. -/
structure CitationRecord where
  doi : String
  crossref_citations : Option Nat
  openalex_citations : Option Nat
  dimensions_citations : Option Nat
  max_citations : Nat
  processed_at : Nat
deriving DecidableEq

/-- Serialize one provider cell: the absent sentinel becomes an empty
CSV cell, a count its decimal rendering. -/
def encodeCell : Option Nat → String
  | none => ""
  | some n => natToString n

/-- Serialize one record as the cells of one CSV row, in the column
order of the `result` dict. -/
def encodeRecord (r : CitationRecord) : List String :=
  [r.doi, encodeCell r.crossref_citations, encodeCell r.openalex_citations,
    encodeCell r.dimensions_citations, natToString r.max_citations,
    natToString r.processed_at]

/-- Deserialize one provider cell: an empty cell is the absent
sentinel; anything non-numeric fails the parse. -/
def decodeCell (s : String) : Option (Option Nat) :=
  if s = "" then some none else (parseNat s).map some

/-- Deserialize one CSV row back into a record; a malformed row fails. -/
def decodeRecord (row : List String) : Option CitationRecord :=
  match row with
  | [doi, c, o, d, m, t] =>
    match decodeCell c, decodeCell o, decodeCell d, parseNat m, parseNat t with
    | some cc, some oo, some dd, some mm, some tt =>
      some ⟨doi, cc, oo, dd, mm, tt⟩
    | _, _, _, _, _ => none
  | _ => none

/-- Deserialize a whole CSV body; any malformed row fails the parse. -/
def decodeRows : List (List String) → Option (List CitationRecord)
  | [] => some []
  | row :: rest =>
    match decodeRecord row, decodeRows rest with
    | some r, some rs => some (r :: rs)
    | _, _ => none

/-- The on-disk state: checkpoint file names (the run-start timestamp
that `analyze_citations` embeds in the name) mapped to CSV row
contents; `none` means the file does not exist. -/
abbrev FS := Nat → Option (List (List String))

/-- A filesystem with no checkpoint files. -/
def fsEmpty : FS := fun _ => none

/-- `save_checkpoint` (lines 119-126): overwrite the checkpoint file
with the CSV serialization of the full current result list. -/
def save_checkpoint (fs : FS) (checkpoint_file : Nat)
    (results : List CitationRecord) : FS :=
  fun k => if k = checkpoint_file then some (results.map encodeRecord) else fs k

/-- `load_checkpoint` (lines 128-139): a missing file yields the empty
list, a parse failure is logged and also yields the empty list. -/
def load_checkpoint (fs : FS) (checkpoint_file : Nat) : List CitationRecord :=
  match fs checkpoint_file with
  | none => []
  | some rows => (decodeRows rows).getD []

/-- One iteration's record (lines 174-193): query CrossRef, then
OpenAlex, then Dimensions through the network oracle `net`, and build
the row with the derived maximum and the current timestamp. -/
def mkRecord (net : Provider → String → HttpResult) (now : Nat)
    (doi : String) : CitationRecord :=
  let crossref_count := get_crossref_citations (net Provider.crossref doi)
  let openalex_count := get_openalex_citations (net Provider.openalex doi)
  let dimensions_count := get_dimensions_citations (net Provider.dimensions doi)
  { doi := doi
    crossref_citations := crossref_count
    openalex_citations := openalex_count
    dimensions_citations := dimensions_count
    max_citations := maxCitations crossref_count openalex_count dimensions_count
    processed_at := now }

/-- The `for i, doi in enumerate(remaining_dois, 1)` loop of
`analyze_citations` (lines 170-205), including the periodic checkpoint
every `checkpoint_interval` identifiers and the unconditional final
save; it also returns the trace of provider queries in the order they
were issued. -/
def runLoop (net : Provider → String → HttpResult) (now interval cf : Nat) :
    List String → Nat → List CitationRecord → FS → List (Provider × String) →
    List CitationRecord × FS × List (Provider × String)
  | [], _, results, fs, trace => (results, save_checkpoint fs cf results, trace)
  | doi :: rest, i, results, fs, trace =>
    let r := mkRecord net now doi
    let results' := results ++ [r]
    let fs' := if i % interval = 0 then save_checkpoint fs cf results' else fs
    runLoop net now interval cf rest (i + 1) results' fs'
      (trace ++ [(Provider.crossref, doi), (Provider.openalex, doi),
        (Provider.dimensions, doi)])

/-- `analyze_citations` (lines 141-207): derive the checkpoint file
name from the run-start timestamp `now`, optionally load it and skip
already-processed identifiers, then run the main loop.  Returns the
final result list, the filesystem, and the provider-query trace. -/
def analyze_citations (net : Provider → String → HttpResult) (now : Nat)
    (doi_list : List String) (checkpoint_interval : Nat)
    (resume_from_checkpoint : Bool) (fs : FS) :
    List CitationRecord × FS × List (Provider × String) :=
  let checkpoint_file := now
  let results :=
    if resume_from_checkpoint then load_checkpoint fs checkpoint_file else []
  let processed_dois := results.map (fun r => r.doi)
  let remaining_dois :=
    if resume_from_checkpoint then
      doi_list.filter (fun d => !(processed_dois.contains d))
    else doi_list
  runLoop net now checkpoint_interval checkpoint_file remaining_dois 1 results fs []

/-- A network oracle whose every response is HTTP 404. -/
def net404 : Provider → String → HttpResult :=
  fun _ _ => HttpResult.response 404 (Except.ok (Json.obj []))

lemma parseDigitsAux_append (l₁ l₂ : List Char) :
    ∀ acc : Nat, parseDigitsAux acc (l₁ ++ l₂) =
      match parseDigitsAux acc l₁ with
      | some a => parseDigitsAux a l₂
      | none => none := by
  induction l₁ with
  | nil => intro acc; rfl
  | cons c cs ih =>
    intro acc
    cases h : digitVal? c <;> simp [parseDigitsAux, h, ih]

lemma digitVal?_digitChar (d : Nat) (h : d < 10) :
    digitVal? (digitChar d) = some d := by
  interval_cases d <;> decide

lemma parseDigitsAux_natDigitsAux (fuel : Nat) :
    ∀ n acc : Nat, n ≤ fuel →
      parseDigitsAux acc (natDigitsAux fuel n) =
        some (acc * 10 ^ (natDigitsAux fuel n).length + n) := by
  induction fuel with
  | zero =>
    intro n acc h
    interval_cases n
    simp [natDigitsAux, parseDigitsAux]
  | succ f ih =>
    intro n acc h
    cases n with
    | zero => simp [natDigitsAux, parseDigitsAux]
    | succ m =>
      have hlt : (m + 1) / 10 < m + 1 := Nat.div_lt_self (Nat.succ_pos m) (by omega)
      have hq : (m + 1) / 10 ≤ f := by omega
      have hr : (m + 1) % 10 < 10 := Nat.mod_lt _ (by omega)
      rw [natDigitsAux, parseDigitsAux_append, ih _ acc hq]
      simp only [parseDigitsAux, digitVal?_digitChar _ hr]
      have hdm : 10 * ((m + 1) / 10) + (m + 1) % 10 = m + 1 := Nat.div_add_mod _ 10
      have hlen : (natDigitsAux f ((m + 1) / 10) ++ [digitChar ((m + 1) % 10)]).length
          = (natDigitsAux f ((m + 1) / 10)).length + 1 := by
        simp
      rw [hlen]
      congr 1
      have hexp : (acc * 10 ^ (natDigitsAux f ((m + 1) / 10)).length + (m + 1) / 10) * 10
            + (m + 1) % 10
          = acc * (10 ^ (natDigitsAux f ((m + 1) / 10)).length * 10)
            + (10 * ((m + 1) / 10) + (m + 1) % 10) := by ring
      rw [hexp, hdm, pow_succ]

lemma natDigits_ne_nil (n : Nat) (h : n ≠ 0) : natDigits n ≠ [] := by
  cases n with
  | zero => exact absurd rfl h
  | succ m => simp [natDigits, natDigitsAux]

lemma parseNat_mk_cons (c : Char) (cs : List Char) :
    parseNat (String.mk (c :: cs)) = parseDigitsAux 0 (c :: cs) := rfl

theorem parseNat_natToString (n : Nat) : parseNat (natToString n) = some n := by
  by_cases h : n = 0
  · subst h; decide
  · rw [natToString, if_neg h]
    obtain ⟨c, cs, hcc⟩ : ∃ c cs, natDigits n = c :: cs := by
      cases hd : natDigits n with
      | nil => exact absurd hd (natDigits_ne_nil n h)
      | cons c cs => exact ⟨c, cs, rfl⟩
    rw [hcc, parseNat_mk_cons, ← hcc]
    rw [natDigits, parseDigitsAux_natDigitsAux n n 0 (Nat.le_refl n)]
    simp

lemma natToString_ne_empty (n : Nat) : natToString n ≠ "" := by
  by_cases h : n = 0
  · subst h; decide
  · rw [natToString, if_neg h]
    intro hmk
    exact natDigits_ne_nil n h (congrArg String.toList hmk)

lemma decodeCell_encodeCell (x : Option Nat) : decodeCell (encodeCell x) = some x := by
  cases x with
  | none => rfl
  | some n =>
    rw [encodeCell, decodeCell, if_neg (natToString_ne_empty n), parseNat_natToString]
    rfl

lemma decodeRecord_encodeRecord (r : CitationRecord) :
    decodeRecord (encodeRecord r) = some r := by
  obtain ⟨doi, c, o, d, m, t⟩ := r
  simp [encodeRecord, decodeRecord, decodeCell_encodeCell, parseNat_natToString]

lemma decodeRows_map_encodeRecord (l : List CitationRecord) :
    decodeRows (l.map encodeRecord) = some l := by
  induction l with
  | nil => rfl
  | cons r rs ih => simp [decodeRows, decodeRecord_encodeRecord, ih]

/-- C6: saving a result set with `save_checkpoint` and loading it back
with `load_checkpoint` yields exactly the original records; in
particular the absent sentinel survives the round-trip (it is carried
inside each reconstructed record). -/
theorem checkpoint_roundtrip (fs : FS) (checkpoint_file : Nat)
    (results : List CitationRecord) :
    load_checkpoint (save_checkpoint fs checkpoint_file results) checkpoint_file
      = results := by
  simp [load_checkpoint, save_checkpoint, decodeRows_map_encodeRecord]

/-- C3: the `max_citations` expression equals the maximum of the
provider values with the absent sentinel counted as 0 — equivalently,
the maximum of the present values, or 0 when all are absent or all
present values are zero — and it takes the three values the
specification lists as examples. -/
theorem maxCitations_spec :
    (∀ c o d : Option Nat,
      maxCitations c o d = Nat.max (c.getD 0) (Nat.max (o.getD 0) (d.getD 0))) ∧
    maxCitations (some 5) none (some 3) = 5 ∧
    maxCitations none none none = 0 ∧
    maxCitations (some 0) (some 0) (some 0) = 0 := by
  refine ⟨?_, by decide, by decide, by decide⟩
  intro c o d
  rcases c with _ | (_ | a) <;> rcases o with _ | (_ | b) <;> rcases d with _ | (_ | e) <;>
    simp [maxCitations, truthy, Nat.max_def] <;>
    first
    | omega
    | (split_ifs <;> omega)

/-- C4: each of the three provider clients maps an HTTP 404 response to
the count 0, not to the absent sentinel, whatever the response body. -/
theorem providers_404_give_zero (body : Except Unit Json) :
    get_crossref_citations (HttpResult.response 404 body) = some 0 ∧
    get_openalex_citations (HttpResult.response 404 body) = some 0 ∧
    get_dimensions_citations (HttpResult.response 404 body) = some 0 := by
  refine ⟨?_, ?_, ?_⟩ <;>
    simp [get_crossref_citations, get_openalex_citations, get_dimensions_citations]

/-- C5: each of the three provider clients returns the absent sentinel
(`none`, distinct from `some 0`) for every HTTP status other than 200
and 404, for a network error or timeout, and for a JSON-parse failure
of a 200 response; the clients are total functions, so one failed call
yields exactly one absent value and cannot abort the run. -/
theorem providers_errors_give_absent (status : Nat) (body : Except Unit Json)
    (h200 : status ≠ 200) (h404 : status ≠ 404) :
    get_crossref_citations (HttpResult.response status body) = none ∧
    get_openalex_citations (HttpResult.response status body) = none ∧
    get_dimensions_citations (HttpResult.response status body) = none ∧
    get_crossref_citations HttpResult.netError = none ∧
    get_openalex_citations HttpResult.netError = none ∧
    get_dimensions_citations HttpResult.netError = none ∧
    get_crossref_citations (HttpResult.response 200 (Except.error ())) = none ∧
    get_openalex_citations (HttpResult.response 200 (Except.error ())) = none ∧
    get_dimensions_citations (HttpResult.response 200 (Except.error ())) = none := by
  refine ⟨?_, ?_, ?_, rfl, rfl, rfl, rfl, rfl, rfl⟩ <;>
    simp [get_crossref_citations, get_openalex_citations, get_dimensions_citations,
      h200, h404]

/-- Witness for `providers_errors_give_absent` at HTTP status 500. -/
theorem providers_errors_give_absent_witness :
    get_crossref_citations (HttpResult.response 500 (Except.ok (Json.obj []))) = none := by
  exact (providers_errors_give_absent 500 (Except.ok (Json.obj []))
    (by decide) (by decide)).1

lemma runLoop_results_map_doi (net : Provider → String → HttpResult)
    (now interval cf : Nat) :
    ∀ (rem : List String) (i : Nat) (results : List CitationRecord) (fs : FS)
      (trace : List (Provider × String)),
      (runLoop net now interval cf rem i results fs trace).1.map (fun r => r.doi)
        = results.map (fun r => r.doi) ++ rem := by
  intro rem
  induction rem with
  | nil => intro i results fs trace; simp [runLoop]
  | cons doi rest ih =>
    intro i results fs trace
    simp [runLoop, ih, mkRecord]

lemma runLoop_trace (net : Provider → String → HttpResult)
    (now interval cf : Nat) :
    ∀ (rem : List String) (i : Nat) (results : List CitationRecord) (fs : FS)
      (trace : List (Provider × String)),
      (runLoop net now interval cf rem i results fs trace).2.2
        = trace ++ rem.flatMap (fun d =>
            [(Provider.crossref, d), (Provider.openalex, d),
              (Provider.dimensions, d)]) := by
  intro rem
  induction rem with
  | nil => intro i results fs trace; simp [runLoop]
  | cons doi rest ih =>
    intro i results fs trace
    simp [runLoop, ih]

/-- C9: with resume enabled, the provider-query trace of a run is
exactly the order-preserving subsequence of the input list made of the
identifiers not already in the loaded checkpoint, expanded per
identifier into a CrossRef query, then an OpenAlex query, then a
Dimensions query; that remaining list is a sublist of the input, so
identifiers are processed strictly in input order. -/
theorem processing_order (net : Provider → String → HttpResult)
    (now interval : Nat) (doi_list : List String) (fs : FS) :
    (analyze_citations net now doi_list interval true fs).2.2
      = (doi_list.filter (fun d =>
          !(((load_checkpoint fs now).map (fun r => r.doi)).contains d))).flatMap
            (fun d => [(Provider.crossref, d), (Provider.openalex, d),
              (Provider.dimensions, d)]) ∧
    List.Sublist
      (doi_list.filter (fun d =>
        !(((load_checkpoint fs now).map (fun r => r.doi)).contains d)))
      doi_list ∧
    (analyze_citations net now doi_list interval false fs).2.2
      = doi_list.flatMap (fun d =>
          [(Provider.crossref, d), (Provider.openalex, d),
            (Provider.dimensions, d)]) := by
  refine ⟨?_, List.filter_sublist _, ?_⟩ <;>
    simp [analyze_citations, runLoop_trace]

/-- C7 counterexample: an input list with a duplicated identifier and no
pre-existing checkpoint yields a result set whose identifier column is
not pairwise distinct, refuting the claimed uniqueness invariant. -/
theorem duplicate_input_breaks_uniqueness :
    ¬ (((analyze_citations net404 1 ["10.1/a", "10.1/a"] 100 true fsEmpty).1.map
        (fun r => r.doi)).Nodup) := by
  decide

/-- C7 amended: the identifier values of the produced result set are
pairwise unique provided the input list itself has no duplicates (and
the loaded checkpoint's identifiers are unique); the run only skips
identifiers found in the checkpoint, computed once at start, so
duplicates inside the input are processed repeatedly. -/
theorem unique_dois_of_nodup_input (net : Provider → String → HttpResult)
    (now interval : Nat) (doi_list : List String) (fs : FS)
    (h1 : doi_list.Nodup)
    (h2 : ((load_checkpoint fs now).map (fun r => r.doi)).Nodup) :
    ((analyze_citations net now doi_list interval true fs).1.map
      (fun r => r.doi)).Nodup ∧
    ((analyze_citations net now doi_list interval false fs).1.map
      (fun r => r.doi)).Nodup := by
  constructor
  · have hmap := runLoop_results_map_doi net now interval now
      (doi_list.filter (fun d =>
        !(((load_checkpoint fs now).map (fun r => r.doi)).contains d)))
      1 (load_checkpoint fs now) fs []
    simp only [analyze_citations, if_pos]
    rw [hmap]
    refine List.Nodup.append h2 (h1.filter _) ?_
    intro a ha hb
    have hc := (List.mem_filter.mp hb).2
    simp at hc
    obtain ⟨r, hr, hdoi⟩ := List.mem_map.mp ha
    exact hc r hr hdoi
  · have hmap := runLoop_results_map_doi net now interval now doi_list 1 [] fs []
    simp only [analyze_citations, Bool.false_eq_true, if_false]
    rw [hmap]
    simpa using h1

/-- Witness for `unique_dois_of_nodup_input` on a duplicate-free
two-identifier input with no checkpoint present. -/
theorem unique_dois_of_nodup_input_witness :
    ((analyze_citations net404 1 ["10.1/a", "10.1/b"] 100 true fsEmpty).1.map
      (fun r => r.doi)).Nodup := by
  exact (unique_dois_of_nodup_input net404 1 100 ["10.1/a", "10.1/b"] fsEmpty
    (by decide) (by decide)).1

/-- C1: the checkpoint file name is derived from the current run's own
start timestamp, so a restart at a later timestamp (here 2, after a
completed run at timestamp 1 over the same identifier set) finds no
checkpoint and queries all three providers for every identifier again —
not zero additional identifiers as claimed.  Only a restart that reuses
the first run's timestamp, and hence its file name, processes nothing
(second conjunct). -/
theorem restart_reprocesses_despite_checkpoint :
    (analyze_citations net404 2 ["10.1/a"] 100 true
        (analyze_citations net404 1 ["10.1/a"] 100 true fsEmpty).2.1).2.2
      = [(Provider.crossref, "10.1/a"), (Provider.openalex, "10.1/a"),
          (Provider.dimensions, "10.1/a")] ∧
    (analyze_citations net404 1 ["10.1/a"] 100 true
        (analyze_citations net404 1 ["10.1/a"] 100 true fsEmpty).2.1).2.2 = [] := by
  exact ⟨by decide, by decide⟩

lemma mk_toList (s : String) : String.mk s.toList = s := rfl

lemma removeAllAux_nil_list (pat : List Char) (fuel : Nat) :
    removeAllAux pat fuel [] = [] := by
  cases fuel <;> rfl

lemma removeAllAux_fuel_irrel (pat : List Char) :
    ∀ (f₁ f₂ : Nat) (l : List Char), l.length ≤ f₁ → l.length ≤ f₂ →
      removeAllAux pat f₁ l = removeAllAux pat f₂ l := by
  intro f₁
  induction f₁ with
  | zero =>
    intro f₂ l h₁ _
    have hl : l = [] := List.eq_nil_of_length_eq_zero (Nat.le_zero.mp h₁)
    subst hl
    rw [removeAllAux_nil_list, removeAllAux_nil_list]
  | succ f ih =>
    intro f₂ l h₁ h₂
    cases l with
    | nil => rw [removeAllAux_nil_list, removeAllAux_nil_list]
    | cons c cs =>
      cases f₂ with
      | zero => simp at h₂
      | succ g =>
        simp only [List.length_cons] at h₁ h₂
        by_cases hcond : pat ≠ [] ∧ pat.isPrefixOf (c :: cs) = true
        · rw [removeAllAux, if_pos hcond, removeAllAux, if_pos hcond]
          apply ih g
          · simp only [List.length_drop]; omega
          · simp only [List.length_drop]; omega
        · rw [removeAllAux, if_neg hcond, removeAllAux, if_neg hcond]
          exact congrArg (c :: ·) (ih g cs (by omega) (by omega))

lemma removeAllAux_of_not_occurs (pat : List Char) :
    ∀ (fuel : Nat) (l : List Char), ¬ (pat <:+: l) → removeAllAux pat fuel l = l := by
  intro fuel
  induction fuel with
  | zero =>
    intro l _
    cases l <;> rfl
  | succ f ih =>
    intro l h
    cases l with
    | nil => rfl
    | cons c cs =>
      have hcond : ¬ (pat ≠ [] ∧ pat.isPrefixOf (c :: cs) = true) := by
        rintro ⟨-, hp⟩
        obtain ⟨t, ht⟩ := List.isPrefixOf_iff_prefix.mp hp
        exact h ⟨[], t, by simpa using ht⟩
      rw [removeAllAux, if_neg hcond]
      have hcs : ¬ (pat <:+: cs) := by
        rintro ⟨u, v, huv⟩
        exact h ⟨c :: u, v, by rw [← huv]; rfl⟩
      rw [ih cs hcs]

lemma removeAllL_append_self (pat rest : List Char) (h : pat ≠ []) :
    removeAllL pat (pat ++ rest) = removeAllL pat rest := by
  cases pat with
  | nil => exact absurd rfl h
  | cons p ps =>
    have hcond : (p :: ps) ≠ [] ∧ (p :: ps).isPrefixOf (p :: (ps ++ rest)) = true :=
      ⟨List.cons_ne_nil p ps,
        List.isPrefixOf_iff_prefix.mpr (List.prefix_append (p :: ps) rest)⟩
    have hlen : ((p :: ps) ++ rest).length = (ps ++ rest).length + 1 := by simp
    rw [removeAllL, hlen, List.cons_append, removeAllAux, if_pos hcond]
    have hdrop : (ps ++ rest).drop ((p :: ps).length - 1) = rest := by
      simp only [List.length_cons, Nat.add_sub_cancel]
      exact List.drop_left ps rest
    rw [hdrop, removeAllL]
    exact removeAllAux_fuel_irrel (p :: ps) _ _ rest (by simp) (Nat.le_refl _)

lemma pyStartsWith_iff_exists (s pre : String) :
    pyStartsWith s pre = true ↔ ∃ rest, s.toList = pre.toList ++ rest := by
  rw [pyStartsWith, List.isPrefixOf_iff_prefix]
  constructor
  · rintro ⟨rest, hr⟩; exact ⟨rest, hr.symm⟩
  · rintro ⟨rest, hr⟩; exact ⟨rest, hr.symm⟩

lemma removeAllStr_of_leading_only_occurrence (t pat : String)
    (hpat : pat.toList ≠ [])
    (hsw : pyStartsWith t pat = true)
    (hno : ¬ (pat.toList <:+: t.toList.drop pat.toList.length)) :
    removeAllStr t pat = String.mk (t.toList.drop pat.toList.length) := by
  obtain ⟨rest, hr⟩ := (pyStartsWith_iff_exists t pat).mp hsw
  have hdrop : t.toList.drop pat.toList.length = rest := by
    rw [hr, List.drop_left]
  rw [hdrop] at hno ⊢
  rw [removeAllStr, hr, removeAllL_append_self _ _ hpat, removeAllL,
    removeAllAux_of_not_occurs pat.toList _ rest hno]

/-- C2 (amended): the loader's per-identifier cleaning strips
whitespace, then — when the trimmed value starts with
`https://doi.org/` (else `doi:`) — removes every occurrence of that
substring, not only the leading one.  When the matched substring occurs
nowhere in the remainder, this is exactly removal of the leading
prefix, covering the specification's examples; values with neither
leading marker are returned trimmed, and identifiers that become empty
are discarded by the loader. -/
theorem cleaning_strips_all_occurrences : ∀ s : String,
    (pyStartsWith (pyStrip s) "https://doi.org/" = true →
      ¬ ("https://doi.org/".toList <:+: (pyStrip s).toList.drop 16) →
      cleanDoi s = String.mk ((pyStrip s).toList.drop 16)) ∧
    (pyStartsWith (pyStrip s) "https://doi.org/" = false →
      pyStartsWith (pyStrip s) "doi:" = true →
      ¬ ("doi:".toList <:+: (pyStrip s).toList.drop 4) →
      cleanDoi s = String.mk ((pyStrip s).toList.drop 4)) ∧
    (pyStartsWith (pyStrip s) "https://doi.org/" = false →
      pyStartsWith (pyStrip s) "doi:" = false →
      cleanDoi s = pyStrip s) ∧
    cleanDoi "https://doi.org/10.1002/x" = "10.1002/x" ∧
    cleanDoi "doi:10.1/y" = "10.1/y" ∧
    (∀ ds : List String, ¬ ("" ∈ cleanDois ds)) := by
  intro s
  have h16 : ("https://doi.org/" : String).toList.length = 16 := by decide
  have h4 : ("doi:" : String).toList.length = 4 := by decide
  refine ⟨?_, ?_, ?_, by decide, by decide, ?_⟩
  · intro h1 hno
    rw [cleanDoi]
    simp only [if_pos h1]
    rw [← h16] at hno ⊢
    exact removeAllStr_of_leading_only_occurrence _ _ (by decide) h1 hno
  · intro h1 h2 hno
    have hstep : cleanDoi s = removeAllStr (pyStrip s) "doi:" := by
      rw [cleanDoi]
      simp only [h1, Bool.false_eq_true, if_false, if_pos h2]
    rw [hstep, ← h4] at *
    exact removeAllStr_of_leading_only_occurrence _ _ (by decide) h2 hno
  · intro h1 h2
    rw [cleanDoi]
    simp only [h1, h2, Bool.false_eq_true, if_false]
  · intro ds hmem
    obtain ⟨a, -, hfa⟩ := List.mem_filterMap.mp hmem
    by_cases hc : cleanDoi a = "" <;> simp [hc] at hfa

/-- Witness for `cleaning_strips_all_occurrences`: cleaning
`" doi:10.1/y "` removes the whitespace and exactly the leading
`doi:`. -/
theorem cleaning_strips_all_occurrences_witness :
    cleanDoi " doi:10.1/y " = "10.1/y" := by
  have h := (cleaning_strips_all_occurrences " doi:10.1/y ").2.1
    (by decide) (by decide) (by decide)
  rw [h]
  decide

/-- C2 counterexample: for the identifier `doi:10.1/doi:y` the code
removes the second, non-leading occurrence of `doi:` as well, so the
result is not the claimed removal of exactly the leading prefix with
other occurrences left intact. -/
theorem cleaning_not_leading_only :
    cleanDoi "doi:10.1/doi:y" = "10.1/y" ∧
    cleanDoi "doi:10.1/doi:y" ≠ "10.1/doi:y" := by
  exact ⟨by decide, by decide⟩

lemma splitCharsAux_of_not_mem (sep : Char) :
    ∀ (l acc : List Char), (¬ sep ∈ l) →
      splitCharsAux sep acc l = [acc.reverse ++ l] := by
  intro l
  induction l with
  | nil => intro acc _; simp [splitCharsAux]
  | cons c cs ih =>
    intro acc h
    have hcs : (c == sep) = false := by
      simp only [beq_eq_false_iff_ne, ne_eq]
      intro he
      exact h (he ▸ List.mem_cons_self c cs)
    rw [splitCharsAux, hcs]
    simp only [Bool.false_eq_true, if_false]
    rw [ih (c :: acc) (fun hm => h (List.mem_cons_of_mem c hm))]
    simp

/-- C10: the manual-entry path only splits on commas, trims and drops
empties — an already-trimmed, comma-free, non-empty identifier passes
through verbatim, prefixes included; the file loader's cleaning, by
contrast, would strip the `doi:`/`https://doi.org/` marker from the
same value. -/
theorem manual_entry_no_cleaning : ∀ s : String,
    pyStrip s = s → (¬ ',' ∈ s.toList) → s ≠ "" →
    splitManual s = [s] ∧
    splitManual "doi:10.1/y" = ["doi:10.1/y"] ∧
    cleanDoi "doi:10.1/y" = "10.1/y" ∧
    splitManual "https://doi.org/10.1002/x" = ["https://doi.org/10.1002/x"] ∧
    cleanDoi "https://doi.org/10.1002/x" = "10.1002/x" := by
  intro s h1 h2 h3
  refine ⟨?_, by decide, by decide, by decide, by decide⟩
  rw [splitManual, h1, pySplit, splitCharsAux_of_not_mem ',' s.toList [] h2]
  simp only [List.reverse_nil, List.nil_append, List.map_cons, List.map_nil,
    mk_toList, h1]
  have : (s == "") = false := by simpa using h3
  simp [this]

/-- Witness for `manual_entry_no_cleaning` at the prefixed identifier
`doi:10.1/y`, which manual entry passes through unchanged. -/
theorem manual_entry_no_cleaning_witness :
    splitManual "doi:10.1/y" = ["doi:10.1/y"] := by
  exact (manual_entry_no_cleaning "doi:10.1/y" (by decide) (by decide) (by decide)).1

lemma filter_replicate_of_true {α : Type} (p : α → Bool) (a : α) (h : p a = true) :
    ∀ n, (List.replicate n a).filter p = List.replicate n a := by
  intro n
  induction n with
  | zero => rfl
  | succ n ih => simp [List.replicate_succ, h, ih]

lemma filterMap_replicate_of_some {α β : Type} (f : α → Option β) (a : α) (b : β)
    (h : f a = some b) :
    ∀ n, (List.replicate n a).filterMap f = List.replicate n b := by
  intro n
  induction n with
  | zero => rfl
  | succ n ih => simp [List.replicate_succ, h, ih]

lemma loadTxtDois_replicate :
    loadTxtDois (List.replicate 6001 "10.1/a") = List.replicate 6001 "10.1/a" := by
  rw [loadTxtDois, List.map_replicate]
  have h1 : pyStrip "10.1/a" = "10.1/a" := by decide
  rw [h1, filter_replicate_of_true _ _ (by decide), cleanDois,
    filterMap_replicate_of_some _ _ "10.1/a" (by decide)]

/-- C8: whenever the identifier list exceeds 6000 entries, the run
keeps exactly the first 6000 in order; the same cap is applied to the
file-input list and to the manually entered list. -/
theorem input_cap_6000 :
    (∀ fileLines : List String, 6000 < (loadTxtDois fileLines).length →
      mainFileDois fileLines = (loadTxtDois fileLines).take 6000) ∧
    (∀ rawInput : String, 6000 < (splitManual rawInput).length →
      mainManualDois rawInput = (splitManual rawInput).take 6000) := by
  constructor
  · intro fileLines h
    rw [mainFileDois, capDois, if_pos h]
  · intro rawInput h
    rw [mainManualDois, capDois, if_pos h]

/-- Witness for `input_cap_6000`: a 6001-line file is truncated to its
first 6000 identifiers. -/
theorem input_cap_6000_witness :
    mainFileDois (List.replicate 6001 "10.1/a")
      = (loadTxtDois (List.replicate 6001 "10.1/a")).take 6000 := by
  apply input_cap_6000.1
  rw [loadTxtDois_replicate, List.length_replicate]
  omega

end CitationTool
